import Mathlib

/-!
Verification of the transport core of the Wisol SIGFOX driver (src/Wisol.cpp).

The development shallowly embeds the byte-exchange loop (`Wisol::sendBuffer`),
the command/message dispatch (`Wisol::sendMessage`, `Wisol::sendString`),
the duty-cycle admission check (`Wisol::isReady`) and the hex codec
(`Wisol::toHex` overloads, `Wisol::hexDigitToDecimal`) as executable Lean
functions, and proves the specification claims about them.

Modelling conventions:
* Arduino `String` values become Lean `String` / `List Char`; raw byte
  streams become `List Int` (a `serialPort->read()` result is an `int`,
  `-1` meaning "nothing read", which the loop skips).
* Real time is abstracted: the receive loop of `sendBuffer` consumes the
  list of bytes that arrive on the serial channel *before the timeout
  elapses*; exhausting that list models the `millis()` timeout firing.
* Side effects become explicit data: reference out-parameters are threaded
  as inputs and outputs, the diagnostic log of `hexDigitToDecimal` and the
  advisory log of `isReady` become `Bool` components of the result, and
  touching the serial port is recorded in the `channelTouched` field.
* C integer arithmetic on `unsigned long` is `Nat` arithmetic modulo `2^32`.
-/

/-- The character marking the end of a modem response: `#define END_OF_RESPONSE '\r'`
(byte value 13), as an `int` because `serialPort->read()` yields `int`. -/
def END_OF_RESPONSE : Int := 13

/-- `#define CMD_SEND_MESSAGE "AT$SF="` — prefix for sending a message. -/
def CMD_SEND_MESSAGE : String := "AT$SF="

/-- `#define CMD_END "\r"`. -/
def CMD_END : String := "\r"

/-- `const uint8_t markerPosMax = 5` — capacity of the global `markerPos` array. -/
def markerPosMax : Nat := 5

/-- Modelled from the spec: `SEND_DELAY`, the recommended inter-message interval,
is defined in SIGFOX.h which is not part of src/; the spec gives the
"regulatory guidance, e.g. 600 seconds". -/
def SEND_DELAY : Nat := 600 * 1000

/-- Modelled from the spec: `WISOL_COMMAND_TIMEOUT` is defined in SIGFOX.h which
is not part of src/; the spec's timeout scenario uses a 2000 ms timeout. -/
def WISOL_COMMAND_TIMEOUT : Nat := 2000

/-- `2^32`, the modulus of `unsigned long` arithmetic on the target. -/
def UINT32_MOD : Nat := 2 ^ 32

/-- `static const char nibbleToHex[] = "0123456789abcdef"` — the lowercase
hex digit table. -/
def nibbleToHex : String := "0123456789abcdef"

/-- The character produced by Arduino `String(n, 16)` for a nibble `n ≤ 15`:
`'0' + n` for `n < 10`, `'a' + (n - 10)` otherwise. -/
def hexDigit (n : Nat) : Char :=
  if n < 10 then Char.ofNat (48 + n) else Char.ofNat (87 + n)

/-- The two hex characters that every `toHex` overload appends for one scanned
byte `b`: `if (b[i] <= 0xF) bytes.concat('0'); bytes.concat(String(b[i], 16));`. -/
def hexByte (b : Nat) : List Char :=
  if b ≤ 15 then ['0', hexDigit b] else [hexDigit (b / 16), hexDigit (b % 16)]

/-- `Wisol::toHex(char c)` — the single byte of `c` (its code point, which for
the ASCII payloads of this driver equals the C byte value) as 2 hex digits. -/
def toHex_char (c : Char) : String :=
  ⟨hexByte c.toNat⟩

/-- `Wisol::toHex(char *c, int length)` — each byte of the span as 2 hex digits,
in a left-to-right scan. -/
def toHex_bytes (c : List Nat) : String :=
  ⟨c.foldl (fun bytes b => bytes ++ hexByte b) []⟩

/-- `Wisol::toHex(int i)` — the loop scans the first 2 bytes of the in-memory
representation (`b[0]`, `b[1]`: low byte first on the AVR target), passed here
explicitly as `b0`, `b1`. -/
def toHex_int (b0 b1 : Nat) : String :=
  ⟨hexByte b0 ++ hexByte b1⟩

/-- `Wisol::toHex(unsigned int ui)` — same 2-byte scan as `toHex_int`. -/
def toHex_uint (b0 b1 : Nat) : String :=
  ⟨hexByte b0 ++ hexByte b1⟩

/-- `Wisol::toHex(long l)` — the loop scans the 4 bytes of the in-memory
representation, passed here explicitly as `b0`..`b3`. -/
def toHex_long (b0 b1 b2 b3 : Nat) : String :=
  ⟨hexByte b0 ++ hexByte b1 ++ hexByte b2 ++ hexByte b3⟩

/-- `Wisol::toHex(unsigned long ul)` — same 4-byte scan as `toHex_long`. -/
def toHex_ulong (b0 b1 b2 b3 : Nat) : String :=
  ⟨hexByte b0 ++ hexByte b1 ++ hexByte b2 ++ hexByte b3⟩

/-- `Wisol::toHex(float f)` — same 4-byte scan of the in-memory bytes. -/
def toHex_float (b0 b1 b2 b3 : Nat) : String :=
  ⟨hexByte b0 ++ hexByte b1 ++ hexByte b2 ++ hexByte b3⟩

/-- `Wisol::toHex(double d)` — same 4-byte scan of the in-memory bytes
(`double` is 4 bytes on the AVR target). -/
def toHex_double (b0 b1 b2 b3 : Nat) : String :=
  ⟨hexByte b0 ++ hexByte b1 ++ hexByte b2 ++ hexByte b3⟩

/-- `Wisol::hexDigitToDecimal(char ch)`.  The source compares the `char`
numerically (`ch >= '0' && ch <= '9'` etc.), returns the value, and on any
other input logs a diagnostic and returns the sentinel `0`.  The second
component records whether the invalid-digit diagnostic was logged. -/
def hexDigitToDecimal (ch : Char) : Nat × Bool :=
  if '0'.toNat ≤ ch.toNat ∧ ch.toNat ≤ '9'.toNat then (ch.toNat - '0'.toNat, false)
  else if 'a'.toNat ≤ ch.toNat ∧ ch.toNat ≤ 'z'.toNat then (ch.toNat - 'a'.toNat + 10, false)
  else if 'A'.toNat ≤ ch.toNat ∧ ch.toNat ≤ 'Z'.toNat then (ch.toNat - 'A'.toNat + 10, false)
  else (0, true)

/-- Decoding of a two-character hex string, the composition the spec states:
`16 * hexDigitToDecimal(first digit) + hexDigitToDecimal(second digit)`. -/
def decodeHexPair (s : String) : Nat :=
  match s.data with
  | [d1, d2] => 16 * (hexDigitToDecimal d1).1 + (hexDigitToDecimal d2).1
  | _ => 0

/-- The driver-instance state of class `Wisol` (the data members set by the
constructor and by operation, omitting the port pointers). -/
structure Wisol where
  country : Nat
  useEmulator : Bool
  device : String
  lastSend : Nat
deriving DecidableEq

/-- The receive-side state of the `sendBuffer` loop: the accumulated
`response`, the recorded `markerPos` slots (the prefix of the global array
written during this exchange) and `actualMarkerCount`. -/
structure RxState where
  response : List Int
  markerPos : List Nat
  actualMarkerCount : Nat
deriving DecidableEq

/-- The `rxChar == END_OF_RESPONSE` branch of the loop: remember the marker
position if capacity remains, and count the marker. -/
def rxStepMarker (s : RxState) : RxState :=
  { response := s.response
    markerPos :=
      if s.actualMarkerCount < markerPosMax then s.markerPos ++ [s.response.length]
      else s.markerPos
    actualMarkerCount := s.actualMarkerCount + 1 }

/-- The non-marker branch of the loop: append the received byte to the
response. -/
def rxAppend (s : RxState) (rxChar : Int) : RxState :=
  { s with response := s.response ++ [rxChar] }

/-- The receive side of the `sendBuffer` loop over the inbound bytes that
arrive before the timeout: skip `-1` reads, count and record `'\r'` markers
(breaking as soon as `actualMarkerCount >= expectedMarkerCount`), append
everything else to the response.  The end of `input` models the timeout
firing with the channel silent. -/
def rxRun (expectedMarkerCount : Nat) : RxState → List Int → RxState
  | s, [] => s
  | s, rxChar :: rest =>
    if rxChar = -1 then rxRun expectedMarkerCount s rest
    else if rxChar = END_OF_RESPONSE then
      if expectedMarkerCount ≤ (rxStepMarker s).actualMarkerCount then rxStepMarker s
      else rxRun expectedMarkerCount (rxStepMarker s) rest
    else rxRun expectedMarkerCount (rxAppend s rxChar) rest

/-- Result of one `Wisol::sendBuffer` call: the returned `bool`, the
`response` and `actualMarkerCount` out-parameters, the `markerPos` slots of
the global array written by this call (on the emulator path, the untouched
previous contents), and whether the serial channel was opened. -/
structure ExchangeOutcome where
  success : Bool
  response : List Int
  actualMarkerCount : Nat
  markerPos : List Nat
  channelTouched : Bool
deriving DecidableEq

/-- `Wisol::sendBuffer`.  `input` is the sequence of `serialPort->read()`
results that arrive before the timeout elapses; `actualMarkerCountIn` and
`markerPosIn` are the previous contents of the out-parameter / global array,
returned unchanged on the emulator path which exits before resetting them.
The `buffer` and `timeout` arguments take part only through the channel
abstraction (`input`), so they are unused here, as is `w` beyond
`useEmulator`. -/
def Wisol.sendBuffer (w : Wisol) (buffer : String) (timeout : Nat)
    (expectedMarkerCount : Nat) (input : List Int)
    (actualMarkerCountIn : Nat) (markerPosIn : List Nat) : ExchangeOutcome :=
  -- response = ""; if (useEmulator) return true;
  if w.useEmulator then
    { success := true
      response := []
      actualMarkerCount := actualMarkerCountIn
      markerPos := markerPosIn
      channelTouched := false }
  else
    -- actualMarkerCount = 0; begin/flush/listen; the send-receive loop.
    let s := rxRun expectedMarkerCount ⟨[], [], 0⟩ input
    { success := decide (expectedMarkerCount ≤ s.actualMarkerCount)
      response := s.response
      actualMarkerCount := s.actualMarkerCount
      markerPos := s.markerPos
      channelTouched := true }

/-- `Wisol::isReady`.  First component: the returned `bool`.  Second
component: whether the non-fatal "should wait 10 mins" advisory was logged.
`currentTime` and `lastSend` are `millis()` values (`unsigned long`), so the
elapsed time is computed modulo `2^32`. -/
def Wisol.isReady (w : Wisol) (currentTime : Nat) : Bool × Bool :=
  if w.lastSend = 0 then (true, false)
  else
    let elapsedTime := (currentTime + UINT32_MOD - w.lastSend) % UINT32_MOD
    if elapsedTime ≤ 2 * 1000 then (false, false)
    else (true, decide (elapsedTime ≤ SEND_DELAY))

/-- The command buffer built by `Wisol::sendMessage`:
`String(CMD_SEND_MESSAGE) + payload + CMD_END`. -/
def sendMessageBuffer (payload : String) : String :=
  CMD_SEND_MESSAGE ++ payload ++ CMD_END

/-- Result of `Wisol::sendMessage` / `Wisol::sendString`: the returned
`bool`, the driver state after the call, and the global `markers` /
`markerPos` out-parameters that `sendBuffer` wrote. -/
structure SendResult where
  success : Bool
  state : Wisol
  markers : Nat
  markerPos : List Nat
deriving DecidableEq

/-- `Wisol::sendMessage`.  Checks `isReady` (duty cycle), then
`exitCommandMode` (always true for Wisol), then sends
`AT$SF=<payload>\r` expecting one `'\r'` marker; on success sets
`lastSend = millis()` (the same abstract `currentTime`). -/
def Wisol.sendMessage (w : Wisol) (payload : String) (currentTime : Nat)
    (input : List Int) (markersIn : Nat) (markerPosIn : List Nat) : SendResult :=
  if (w.isReady currentTime).1 = false then
    { success := false, state := w, markers := markersIn, markerPos := markerPosIn }
  else
    let out := w.sendBuffer (sendMessageBuffer payload) WISOL_COMMAND_TIMEOUT 1
      input markersIn markerPosIn
    if out.success then
      { success := true
        state := { w with lastSend := currentTime }
        markers := out.actualMarkerCount
        markerPos := out.markerPos }
    else
      { success := false
        state := w
        markers := out.actualMarkerCount
        markerPos := out.markerPos }

/-- The payload built by the loop of `Wisol::sendString`:
`payload.concat(toHex(str.charAt(i)))` for each character. -/
def sendStringPayload (str : String) : String :=
  str.data.foldl (fun payload ch => payload ++ toHex_char ch) ""

/-- `Wisol::sendString` — encode the text per character and send it. -/
def Wisol.sendString (w : Wisol) (str : String) (currentTime : Nat)
    (input : List Int) (markersIn : Nat) (markerPosIn : List Nat) : SendResult :=
  w.sendMessage (sendStringPayload str) currentTime input markersIn markerPosIn

@[simp]
theorem rxStepMarker_count (s : RxState) :
    (rxStepMarker s).actualMarkerCount = s.actualMarkerCount + 1 := rfl

@[simp]
theorem rxStepMarker_response (s : RxState) :
    (rxStepMarker s).response = s.response := rfl

theorem rxStepMarker_markerPos (s : RxState) :
    (rxStepMarker s).markerPos =
      if s.actualMarkerCount < markerPosMax then s.markerPos ++ [s.response.length]
      else s.markerPos := rfl

@[simp]
theorem rxAppend_count (s : RxState) (b : Int) :
    (rxAppend s b).actualMarkerCount = s.actualMarkerCount := rfl

@[simp]
theorem rxAppend_markerPos (s : RxState) (b : Int) :
    (rxAppend s b).markerPos = s.markerPos := rfl

@[simp]
theorem rxAppend_response (s : RxState) (b : Int) :
    (rxAppend s b).response = s.response ++ [b] := rfl

/-- If fewer markers than `expected` remain to be seen, the loop never breaks
early and counts every terminator of the inbound stream. -/
theorem rxRun_count_all (expected : Nat) :
    ∀ (input : List Int) (s : RxState),
      s.actualMarkerCount + input.count END_OF_RESPONSE < expected →
      (rxRun expected s input).actualMarkerCount
        = s.actualMarkerCount + input.count END_OF_RESPONSE := by
  intro input
  induction input with
  | nil =>
    intro s _
    simp [rxRun]
  | cons b rest ih =>
    intro s h
    rw [rxRun]
    rcases eq_or_ne b (-1) with hb1 | hb1
    · rw [if_pos hb1]
      have hc : (b :: rest).count END_OF_RESPONSE = rest.count END_OF_RESPONSE := by
        simp [List.count_cons, hb1, END_OF_RESPONSE]
      rw [hc] at h ⊢
      exact ih s h
    · rw [if_neg hb1]
      rcases eq_or_ne b END_OF_RESPONSE with hb2 | hb2
      · rw [if_pos hb2]
        have hc : (b :: rest).count END_OF_RESPONSE = rest.count END_OF_RESPONSE + 1 := by
          simp [List.count_cons, hb2]
        rw [hc] at h ⊢
        have hle : ¬ expected ≤ (rxStepMarker s).actualMarkerCount := by
          simp only [rxStepMarker_count]
          omega
        rw [if_neg hle]
        have := ih (rxStepMarker s) (by simp only [rxStepMarker_count]; omega)
        simp only [rxStepMarker_count] at this
        rw [this]
        omega
      · rw [if_neg hb2]
        have hc : (b :: rest).count END_OF_RESPONSE = rest.count END_OF_RESPONSE := by
          simp [List.count_cons, hb2]
        rw [hc] at h ⊢
        have := ih (rxAppend s b) (by simp only [rxAppend_count]; omega)
        simp only [rxAppend_count] at this
        rw [this]

/-- If at least `expected` markers (with `expected ≥ 1` pending) arrive, the
loop stops exactly at the `expected`-th one. -/
theorem rxRun_count_reach (expected : Nat) :
    ∀ (input : List Int) (s : RxState),
      s.actualMarkerCount < expected →
      expected ≤ s.actualMarkerCount + input.count END_OF_RESPONSE →
      (rxRun expected s input).actualMarkerCount = expected := by
  intro input
  induction input with
  | nil =>
    intro s h1 h2
    simp only [List.count_nil] at h2
    omega
  | cons b rest ih =>
    intro s h1 h2
    rw [rxRun]
    rcases eq_or_ne b (-1) with hb1 | hb1
    · rw [if_pos hb1]
      have hc : (b :: rest).count END_OF_RESPONSE = rest.count END_OF_RESPONSE := by
        simp [List.count_cons, hb1, END_OF_RESPONSE]
      rw [hc] at h2
      exact ih s h1 h2
    · rw [if_neg hb1]
      rcases eq_or_ne b END_OF_RESPONSE with hb2 | hb2
      · rw [if_pos hb2]
        have hc : (b :: rest).count END_OF_RESPONSE = rest.count END_OF_RESPONSE + 1 := by
          simp [List.count_cons, hb2]
        rw [hc] at h2
        by_cases hle : expected ≤ (rxStepMarker s).actualMarkerCount
        · rw [if_pos hle]
          simp only [rxStepMarker_count] at hle ⊢
          omega
        · rw [if_neg hle]
          simp only [rxStepMarker_count] at hle
          exact ih (rxStepMarker s) (by simp only [rxStepMarker_count]; omega)
            (by simp only [rxStepMarker_count]; omega)
      · rw [if_neg hb2]
        have hc : (b :: rest).count END_OF_RESPONSE = rest.count END_OF_RESPONSE := by
          simp [List.count_cons, hb2]
        rw [hc] at h2
        exact ih (rxAppend s b) (by simpa using h1) (by simp only [rxAppend_count]; omega)

/-- The number of recorded marker positions tracks
`min actualMarkerCount markerPosMax` through the loop. -/
theorem rxRun_markerPos_length (expected : Nat) :
    ∀ (input : List Int) (s : RxState),
      s.markerPos.length = min s.actualMarkerCount markerPosMax →
      (rxRun expected s input).markerPos.length
        = min (rxRun expected s input).actualMarkerCount markerPosMax := by
  intro input
  induction input with
  | nil =>
    intro s h
    simpa [rxRun] using h
  | cons b rest ih =>
    intro s h
    have h5 : markerPosMax = 5 := rfl
    rw [rxRun]
    rcases eq_or_ne b (-1) with hb1 | hb1
    · rw [if_pos hb1]
      exact ih s h
    · rw [if_neg hb1]
      rcases eq_or_ne b END_OF_RESPONSE with hb2 | hb2
      · rw [if_pos hb2]
        have hstep : (rxStepMarker s).markerPos.length
            = min (rxStepMarker s).actualMarkerCount markerPosMax := by
          rw [rxStepMarker_markerPos]
          by_cases hcap : s.actualMarkerCount < markerPosMax
          · rw [if_pos hcap]
            simp only [List.length_append, List.length_cons, List.length_nil,
              rxStepMarker_count]
            omega
          · rw [if_neg hcap]
            simp only [rxStepMarker_count]
            omega
        by_cases hle : expected ≤ (rxStepMarker s).actualMarkerCount
        · rw [if_pos hle]
          exact hstep
        · rw [if_neg hle]
          exact ih (rxStepMarker s) hstep
      · rw [if_neg hb2]
        exact ih (rxAppend s b) (by simpa using h)

/-- Invariant of the loop: recorded marker positions are non-decreasing and
never exceed the current response length. -/
theorem rxRun_markerPos_mono (expected : Nat) :
    ∀ (input : List Int) (s : RxState),
      s.markerPos.Pairwise (· ≤ ·) →
      (∀ p ∈ s.markerPos, p ≤ s.response.length) →
      (rxRun expected s input).markerPos.Pairwise (· ≤ ·)
        ∧ ∀ p ∈ (rxRun expected s input).markerPos,
            p ≤ (rxRun expected s input).response.length := by
  intro input
  induction input with
  | nil =>
    intro s h1 h2
    rw [rxRun]
    exact ⟨h1, h2⟩
  | cons b rest ih =>
    intro s h1 h2
    rw [rxRun]
    rcases eq_or_ne b (-1) with hb1 | hb1
    · rw [if_pos hb1]
      exact ih s h1 h2
    · rw [if_neg hb1]
      rcases eq_or_ne b END_OF_RESPONSE with hb2 | hb2
      · rw [if_pos hb2]
        have hstep1 : (rxStepMarker s).markerPos.Pairwise (· ≤ ·) := by
          rw [rxStepMarker_markerPos]
          by_cases hcap : s.actualMarkerCount < markerPosMax
          · rw [if_pos hcap]
            rw [List.pairwise_append]
            refine ⟨h1, List.pairwise_singleton _ _, ?_⟩
            intro a ha c hc
            simp only [List.mem_singleton] at hc
            subst hc
            exact h2 a ha
          · rw [if_neg hcap]
            exact h1
        have hstep2 : ∀ p ∈ (rxStepMarker s).markerPos,
            p ≤ (rxStepMarker s).response.length := by
          rw [rxStepMarker_markerPos]
          simp only [rxStepMarker_response]
          by_cases hcap : s.actualMarkerCount < markerPosMax
          · rw [if_pos hcap]
            intro p hp
            rcases List.mem_append.mp hp with hp | hp
            · exact h2 p hp
            · simp only [List.mem_singleton] at hp
              omega
          · rw [if_neg hcap]
            exact h2
        by_cases hle : expected ≤ (rxStepMarker s).actualMarkerCount
        · rw [if_pos hle]
          exact ⟨hstep1, hstep2⟩
        · rw [if_neg hle]
          exact ih (rxStepMarker s) hstep1 hstep2
      · rw [if_neg hb2]
        refine ih (rxAppend s b) (by simpa using h1) ?_
        intro p hp
        simp only [rxAppend_markerPos] at hp
        simp only [rxAppend_response, List.length_append, List.length_cons,
          List.length_nil]
        have := h2 p hp
        omega

/-- Every byte is encoded by exactly two characters. -/
theorem hexByte_length (b : Nat) : (hexByte b).length = 2 := by
  unfold hexByte
  split <;> rfl

/-- Unfolding of the `toHex_bytes` fold with an arbitrary accumulator. -/
theorem toHex_bytes_foldl_length (bs : List Nat) :
    ∀ acc : List Char,
      (bs.foldl (fun bytes b => bytes ++ hexByte b) acc).length
        = acc.length + 2 * bs.length := by
  induction bs with
  | nil =>
    intro acc
    simp
  | cons b rest ih =>
    intro acc
    rw [List.foldl_cons, ih (acc ++ hexByte b)]
    simp [hexByte_length]
    omega

theorem toHex_bytes_foldl_acc (bs : List Nat) :
    ∀ acc : List Char,
      bs.foldl (fun bytes b => bytes ++ hexByte b) acc
        = acc ++ bs.foldl (fun bytes b => bytes ++ hexByte b) [] := by
  induction bs with
  | nil =>
    intro acc
    simp
  | cons b rest ih =>
    intro acc
    rw [List.foldl_cons, List.foldl_cons, ih (acc ++ hexByte b), ih ([] ++ hexByte b)]
    simp

/-- Character-level unfolding of the `sendString` payload fold. -/
theorem sendStringPayload_foldl_length (l : List Char) :
    ∀ acc : String,
      (l.foldl (fun payload ch => payload ++ toHex_char ch) acc).length
        = acc.length + 2 * l.length := by
  induction l with
  | nil =>
    intro acc
    simp
  | cons c rest ih =>
    intro acc
    rw [List.foldl_cons, ih (acc ++ toHex_char c), String.length_append]
    have hc : (toHex_char c).length = (hexByte c.toNat).length := rfl
    rw [hc, hexByte_length]
    simp
    omega

/-- Claim C1: a (non-emulator) `sendBuffer` exchange succeeds if and only if
the number of `'\r'` terminators counted from the inbound stream before the
timeout is at least `expectedMarkerCount`; every terminator is counted (the
loop stops exactly at the `expectedMarkerCount`-th one when enough arrive,
and counts all of them when fewer arrive), while only the first
`markerPosMax = 5` positions are recorded — so `expectedMarkerCount = 7` with
seven inbound terminators succeeds with `actualMarkerCount = 7`. -/
theorem C1_sendBuffer_success_iff_markerCount (w : Wisol) (buffer : String)
    (timeout expectedMarkerCount : Nat) (input : List Int)
    (acIn : Nat) (mpIn : List Nat) (hw : w.useEmulator = false) :
    ((w.sendBuffer buffer timeout expectedMarkerCount input acIn mpIn).success = true
      ↔ expectedMarkerCount
          ≤ (w.sendBuffer buffer timeout expectedMarkerCount input acIn mpIn).actualMarkerCount)
    ∧ (1 ≤ expectedMarkerCount → expectedMarkerCount ≤ input.count END_OF_RESPONSE →
        (w.sendBuffer buffer timeout expectedMarkerCount input acIn mpIn).actualMarkerCount
          = expectedMarkerCount)
    ∧ (input.count END_OF_RESPONSE < expectedMarkerCount →
        (w.sendBuffer buffer timeout expectedMarkerCount input acIn mpIn).actualMarkerCount
          = input.count END_OF_RESPONSE)
    ∧ (w.sendBuffer buffer timeout expectedMarkerCount input acIn mpIn).markerPos.length
        = min (w.sendBuffer buffer timeout expectedMarkerCount input acIn mpIn).actualMarkerCount
            markerPosMax := by
  simp only [Wisol.sendBuffer, hw, Bool.false_eq_true, if_false]
  refine ⟨by simp, ?_, ?_, ?_⟩
  · intro h1 h2
    exact rxRun_count_reach expectedMarkerCount input ⟨[], [], 0⟩ (by simpa using h1)
      (by simpa using h2)
  · intro h
    simpa using rxRun_count_all expectedMarkerCount input ⟨[], [], 0⟩ (by simpa using h)
  · exact rxRun_markerPos_length expectedMarkerCount input ⟨[], [], 0⟩ (by simp)

/-- Witness for C1: seven inbound terminators with `expectedMarkerCount = 7`
succeed with `actualMarkerCount = 7` and only 5 recorded positions. -/
theorem C1_witness :
    ((⟨0, false, "", 0⟩ : Wisol).sendBuffer ("x") 2000 7
        (List.replicate 7 END_OF_RESPONSE) 0 []).success = true
    ∧ ((⟨0, false, "", 0⟩ : Wisol).sendBuffer ("x") 2000 7
        (List.replicate 7 END_OF_RESPONSE) 0 []).actualMarkerCount = 7
    ∧ ((⟨0, false, "", 0⟩ : Wisol).sendBuffer ("x") 2000 7
        (List.replicate 7 END_OF_RESPONSE) 0 []).markerPos.length = 5 := by
  have h := C1_sendBuffer_success_iff_markerCount ⟨0, false, "", 0⟩ ("x") 2000 7
    (List.replicate 7 END_OF_RESPONSE) 0 [] rfl
  have hcount := h.2.1 (by decide) (by decide)
  refine ⟨h.1.mpr (by rw [hcount]), hcount, ?_⟩
  rw [h.2.2.2, hcount]
  decide

set_option maxRecDepth 8000 in
/-- Claim C2: for every byte value, decoding the two hex characters produced
by `toHex((char) b)` with `16 * hexDigitToDecimal(d1) + hexDigitToDecimal(d2)`
gives the byte back, also after uppercasing the digits. -/
theorem C2_hex_roundtrip : ∀ b : Nat, b < 256 →
    decodeHexPair (toHex_char (Char.ofNat b)) = b
    ∧ decodeHexPair ⟨(toHex_char (Char.ofNat b)).data.map Char.toUpper⟩ = b := by
  decide

/-- Witness for C2 at byte 171 (hex "ab" / "AB"). -/
theorem C2_witness :
    decodeHexPair (toHex_char (Char.ofNat 171)) = 171
    ∧ decodeHexPair ⟨(toHex_char (Char.ofNat 171)).data.map Char.toUpper⟩ = 171 :=
  C2_hex_roundtrip 171 (by decide)

/-- Counterexample for C3 as stated: with `lastSend = 1` and
`currentTime = 2001` the elapsed time is exactly the 2-second floor
(`2000 ms`), yet `isReady` returns `false` — the claim says every elapsed
time at or above the floor yields `true`. -/
theorem C3_counterexample :
    ((⟨0, false, "", 1⟩ : Wisol).isReady 2001).1 = false
    ∧ (2001 + UINT32_MOD - 1) % UINT32_MOD = 2 * 1000 := by
  constructor
  · decide
  · decide

/-- Claim C3 (amended): `isReady` returns `true` unconditionally when
`lastSend` is the initial sentinel 0; otherwise it returns `false` exactly
when the elapsed time is at or below the 2-second floor (the floor itself is
inclusive, i.e. blocked), returns `true` for every elapsed time strictly
above the floor, and logs the non-fatal advisory exactly when the elapsed
time is above the floor but within the recommended `SEND_DELAY` interval —
the advisory never blocks. -/
theorem C3_isReady_boundaries (w : Wisol) (currentTime : Nat) :
    (w.lastSend = 0 → w.isReady currentTime = (true, false))
    ∧ (w.lastSend ≠ 0 →
        (((w.isReady currentTime).1 = false
            ↔ (currentTime + UINT32_MOD - w.lastSend) % UINT32_MOD ≤ 2 * 1000)
          ∧ ((w.isReady currentTime).2 = true
              ↔ (2 * 1000 < (currentTime + UINT32_MOD - w.lastSend) % UINT32_MOD
                  ∧ (currentTime + UINT32_MOD - w.lastSend) % UINT32_MOD ≤ SEND_DELAY))
          ∧ ((w.isReady currentTime).2 = true → (w.isReady currentTime).1 = true))) := by
  constructor
  · intro h
    simp [Wisol.isReady, h]
  · intro h
    simp only [Wisol.isReady, if_neg h]
    by_cases hb : (currentTime + UINT32_MOD - w.lastSend) % UINT32_MOD ≤ 2 * 1000
    · rw [if_pos hb]
      refine ⟨by simpa using hb, ?_, by simp⟩
      simp only [Prod.snd]
      constructor
      · intro hx
        exact absurd hx (by simp)
      · intro hx
        omega
    · rw [if_neg hb]
      refine ⟨by simpa using hb, ?_, by simp⟩
      simp only [Prod.snd, decide_eq_true_iff]
      constructor
      · intro hx
        exact ⟨by omega, hx⟩
      · intro hx
        exact hx.2

/-- Witness for C3 (amended) at `lastSend = 1`, `currentTime = 5001`. -/
theorem C3_witness :
    (((⟨0, false, "", 1⟩ : Wisol).isReady 5001).1 = false
      ↔ (5001 + UINT32_MOD - 1) % UINT32_MOD ≤ 2 * 1000) :=
  ((C3_isReady_boundaries (⟨0, false, "", 1⟩ : Wisol) 5001).2 (by decide)).1

/-- Claim C4: `sendMessage` leaves the driver state (in particular
`lastSend`) unchanged when the duty-cycle check rejects the send or the
exchange fails, and sets `lastSend` to the current time exactly when the
exchange succeeds. -/
theorem C4_sendMessage_lastSend (w : Wisol) (payload : String) (currentTime : Nat)
    (input : List Int) (markersIn : Nat) (markerPosIn : List Nat) :
    ((w.isReady currentTime).1 = false →
      w.sendMessage payload currentTime input markersIn markerPosIn
        = { success := false, state := w, markers := markersIn, markerPos := markerPosIn })
    ∧ ((w.sendMessage payload currentTime input markersIn markerPosIn).success = false →
        (w.sendMessage payload currentTime input markersIn markerPosIn).state = w)
    ∧ ((w.sendMessage payload currentTime input markersIn markerPosIn).success = true →
        (w.sendMessage payload currentTime input markersIn markerPosIn).state
          = { w with lastSend := currentTime }) := by
  by_cases hr : (w.isReady currentTime).1 = false
  · refine ⟨fun _ => ?_, fun _ => ?_, fun hsucc => ?_⟩
    · simp [Wisol.sendMessage, hr]
    · simp [Wisol.sendMessage, hr]
    · simp [Wisol.sendMessage, hr] at hsucc
  · by_cases hs : (w.sendBuffer (sendMessageBuffer payload) WISOL_COMMAND_TIMEOUT 1
        input markersIn markerPosIn).success = true
    · refine ⟨fun hc => absurd hc hr, fun hfail => ?_, fun _ => ?_⟩
      · simp [Wisol.sendMessage, hr, hs] at hfail
      · simp [Wisol.sendMessage, hr, hs]
    · refine ⟨fun hc => absurd hc hr, fun _ => ?_, fun hsucc => ?_⟩
      · simp [Wisol.sendMessage, hr, hs]
      · simp [Wisol.sendMessage, hr, hs] at hsucc

/-- Witness for C4: a failed exchange (silent channel) leaves the state
untouched; a successful one sets `lastSend` to the current time. -/
theorem C4_witness :
    ((⟨0, false, "", 0⟩ : Wisol).sendMessage ("48") 5 [] 0 []).state = ⟨0, false, "", 0⟩
    ∧ ((⟨0, false, "", 0⟩ : Wisol).sendMessage ("48") 5 [13] 0 []).state
        = ⟨0, false, "", 5⟩ := by
  refine ⟨(C4_sendMessage_lastSend ⟨0, false, "", 0⟩ ("48") 5 [] 0 []).2.1 (by decide), ?_⟩
  exact (C4_sendMessage_lastSend ⟨0, false, "", 0⟩ ("48") 5 [13] 0 []).2.2 (by decide)

/-- Counterexample for C5 as stated: two consecutive `'\r'` terminators with
no byte in between are both recorded at offset 0, so the recorded marker
positions `[0, 0]` are not strictly increasing. -/
theorem C5_counterexample :
    ((⟨0, false, "", 0⟩ : Wisol).sendBuffer ("AT") 2000 2 [13, 13] 0 []).markerPos = [0, 0]
    ∧ ¬ List.Pairwise (fun p q => p < q)
        ((⟨0, false, "", 0⟩ : Wisol).sendBuffer ("AT") 2000 2 [13, 13] 0 []).markerPos := by
  constructor
  · decide
  · decide

/-- Claim C5 (amended): the marker positions recorded by a (non-emulator)
`sendBuffer` exchange form a non-decreasing (not necessarily strictly
increasing) sequence of offsets, each at most the length of the accumulated
response buffer. -/
theorem C5_markerPos_monotone (w : Wisol) (buffer : String)
    (timeout expectedMarkerCount : Nat) (input : List Int)
    (acIn : Nat) (mpIn : List Nat) (hw : w.useEmulator = false) :
    (w.sendBuffer buffer timeout expectedMarkerCount input acIn mpIn).markerPos.Pairwise (· ≤ ·)
    ∧ ∀ p ∈ (w.sendBuffer buffer timeout expectedMarkerCount input acIn mpIn).markerPos,
        p ≤ (w.sendBuffer buffer timeout expectedMarkerCount input acIn mpIn).response.length := by
  simp only [Wisol.sendBuffer, hw, Bool.false_eq_true, if_false]
  exact rxRun_markerPos_mono expectedMarkerCount input ⟨[], [], 0⟩ (by simp) (by simp)

/-- Witness for C5 (amended) on the stream `A \r B \r`. -/
theorem C5_witness :
    ((⟨0, false, "", 0⟩ : Wisol).sendBuffer ("x") 2000 5
        [65, 13, 66, 13] 0 []).markerPos.Pairwise (· ≤ ·) :=
  (C5_markerPos_monotone ⟨0, false, "", 0⟩ ("x") 2000 5 [65, 13, 66, 13] 0 [] rfl).1

/-- Counterexample for C6 as stated: `sendString` performs no length check —
a 13-character string is encoded to 26 hex characters (beyond the
24-character payload limit) and is still handed to `sendMessage`, which
sends it successfully. -/
theorem C6_counterexample :
    (sendStringPayload ("AAAAAAAAAAAAA")).length = 26
    ∧ ((⟨0, false, "", 0⟩ : Wisol).sendString ("AAAAAAAAAAAAA") 1 [13] 0 []).success
        = true := by
  constructor
  · decide
  · decide

/-- Claim C6 (amended): `sendString` encodes its text argument character by
character via the hex encoding (two hex digits per source character, so the
payload has exactly `2 * length` hex characters) and passes the result to
`sendMessage`; the 12-source-character / 24-hex-character limit is documented
but not enforced by any check. -/
theorem C6_sendString_encodes (w : Wisol) (str : String) (currentTime : Nat)
    (input : List Int) (markersIn : Nat) (markerPosIn : List Nat) :
    w.sendString str currentTime input markersIn markerPosIn
      = w.sendMessage (sendStringPayload str) currentTime input markersIn markerPosIn
    ∧ (sendStringPayload str).length = 2 * str.length := by
  refine ⟨rfl, ?_⟩
  have h := sendStringPayload_foldl_length str.data ""
  have h2 : str.data.length = str.length := rfl
  rw [h2] at h
  simpa [sendStringPayload] using h

set_option maxRecDepth 8000 in
/-- Claim C7: each `toHex` overload encodes each scanned byte of the
in-memory representation as exactly two lowercase hex digits (zero-padded),
scanning left to right, yielding `2 * width` characters: 2 for `char`,
4 for `int` / `unsigned int`, 8 for `long` / `unsigned long` / `float` /
`double`, and `2 * length` for a byte span. -/
theorem C7_toHex_widths :
    (∀ b : Nat, b < 256 →
        (hexByte b).length = 2
        ∧ (∀ c ∈ hexByte b, c ∈ nibbleToHex.data)
        ∧ (b ≤ 15 → hexByte b = ['0', hexDigit b]))
    ∧ (∀ bs : List Nat, (toHex_bytes bs).length = 2 * bs.length)
    ∧ (∀ (b : Nat) (bs : List Nat),
        (toHex_bytes (b :: bs)).data = hexByte b ++ (toHex_bytes bs).data)
    ∧ (∀ c : Char, (toHex_char c).length = 2)
    ∧ (∀ b0 b1 : Nat, (toHex_int b0 b1).length = 4 ∧ (toHex_uint b0 b1).length = 4
        ∧ (toHex_int b0 b1).data = hexByte b0 ++ hexByte b1)
    ∧ (∀ b0 b1 b2 b3 : Nat,
        (toHex_long b0 b1 b2 b3).length = 8 ∧ (toHex_ulong b0 b1 b2 b3).length = 8
        ∧ (toHex_float b0 b1 b2 b3).length = 8 ∧ (toHex_double b0 b1 b2 b3).length = 8) := by
  refine ⟨by decide, ?_, ?_, ?_, ?_, ?_⟩
  · intro bs
    simpa [toHex_bytes] using toHex_bytes_foldl_length bs []
  · intro b bs
    have h : (toHex_bytes (b :: bs)).data
        = bs.foldl (fun bytes x => bytes ++ hexByte x) ([] ++ hexByte b) := rfl
    rw [h, toHex_bytes_foldl_acc bs ([] ++ hexByte b)]
    simp [toHex_bytes]
  · intro c
    exact hexByte_length c.toNat
  · intro b0 b1
    refine ⟨?_, ?_, rfl⟩
    · show (hexByte b0 ++ hexByte b1).length = 4
      simp [List.length_append, hexByte_length]
    · show (hexByte b0 ++ hexByte b1).length = 4
      simp [List.length_append, hexByte_length]
  · intro b0 b1 b2 b3
    refine ⟨?_, ?_, ?_, ?_⟩ <;>
      · show (hexByte b0 ++ hexByte b1 ++ hexByte b2 ++ hexByte b3).length = 8
        simp [List.length_append, hexByte_length]

/-- Witness for C7 at concrete bytes. -/
theorem C7_witness :
    (hexByte 171).length = 2
    ∧ (toHex_bytes [18, 52, 86, 120]).length = 8
    ∧ (toHex_long 1 2 3 4).length = 8 :=
  ⟨(C7_toHex_widths.1 171 (by decide)).1,
    C7_toHex_widths.2.1 [18, 52, 86, 120],
    (C7_toHex_widths.2.2.2.2.2 1 2 3 4).1⟩

/-- Claim C8: `hexDigitToDecimal` maps digits to 0–9, lowercase and
uppercase letters (the full `a..z` / `A..Z` ranges) to 10–35, and for any
other character returns the sentinel 0 and logs a diagnostic (the `Bool`
component), raising no exception — so a plain 0 return does not distinguish
a valid `'0'` from an invalid input. -/
theorem C8_hexDigitToDecimal_cases :
    (∀ ch : Char, '0'.toNat ≤ ch.toNat → ch.toNat ≤ '9'.toNat →
        hexDigitToDecimal ch = (ch.toNat - '0'.toNat, false))
    ∧ (∀ ch : Char, 'a'.toNat ≤ ch.toNat → ch.toNat ≤ 'z'.toNat →
        hexDigitToDecimal ch = (ch.toNat - 'a'.toNat + 10, false))
    ∧ (∀ ch : Char, 'A'.toNat ≤ ch.toNat → ch.toNat ≤ 'Z'.toNat →
        hexDigitToDecimal ch = (ch.toNat - 'A'.toNat + 10, false))
    ∧ (∀ ch : Char,
        ¬('0'.toNat ≤ ch.toNat ∧ ch.toNat ≤ '9'.toNat) →
        ¬('a'.toNat ≤ ch.toNat ∧ ch.toNat ≤ 'z'.toNat) →
        ¬('A'.toNat ≤ ch.toNat ∧ ch.toNat ≤ 'Z'.toNat) →
        hexDigitToDecimal ch = (0, true))
    ∧ (hexDigitToDecimal '0').1 = (hexDigitToDecimal '*').1 := by
  have c0 : ('0').toNat = 48 := rfl
  have c9 : ('9').toNat = 57 := rfl
  have ca : ('a').toNat = 97 := rfl
  have cz : ('z').toNat = 122 := rfl
  have cA : ('A').toNat = 65 := rfl
  have cZ : ('Z').toNat = 90 := rfl
  refine ⟨?_, ?_, ?_, ?_, by decide⟩
  · intro ch h1 h2
    unfold hexDigitToDecimal
    rw [if_pos ⟨h1, h2⟩]
  · intro ch h1 h2
    unfold hexDigitToDecimal
    simp only [c0, c9, ca, cz, cA, cZ] at h1 h2 ⊢
    rw [if_neg (by omega), if_pos ⟨h1, h2⟩]
  · intro ch h1 h2
    unfold hexDigitToDecimal
    simp only [c0, c9, ca, cz, cA, cZ] at h1 h2 ⊢
    rw [if_neg (by omega), if_neg (by omega), if_pos ⟨h1, h2⟩]
  · intro ch h1 h2 h3
    unfold hexDigitToDecimal
    rw [if_neg h1, if_neg h2, if_neg h3]

/-- Witness for C8 at `'b'`, `'G'` and the invalid `'*'`. -/
theorem C8_witness :
    hexDigitToDecimal 'b' = ('b'.toNat - 'a'.toNat + 10, false)
    ∧ hexDigitToDecimal 'G' = ('G'.toNat - 'A'.toNat + 10, false)
    ∧ hexDigitToDecimal '*' = (0, true) :=
  ⟨C8_hexDigitToDecimal_cases.2.1 'b' (by decide) (by decide),
    C8_hexDigitToDecimal_cases.2.2.1 'G' (by decide) (by decide),
    C8_hexDigitToDecimal_cases.2.2.2.1 '*' (by decide) (by decide) (by decide)⟩

/-- Claim C9: sending the text "Hi" encodes to the hex payload "4869",
builds the command buffer `AT$SF=4869\r`, and — given a single-terminator
simulated response — succeeds, counting exactly one marker and recording
the send time. -/
theorem C9_sendString_Hi :
    sendStringPayload ("Hi") = "4869"
    ∧ sendMessageBuffer ("4869") = "AT$SF=4869\r"
    ∧ ((⟨0, false, "", 0⟩ : Wisol).sendString ("Hi") 1000 [13] 0 []).success = true
    ∧ ((⟨0, false, "", 0⟩ : Wisol).sendString ("Hi") 1000 [13] 0 []).markers = 1
    ∧ ((⟨0, false, "", 0⟩ : Wisol).sendString ("Hi") 1000 [13] 0 []).state.lastSend
        = 1000 := by
  refine ⟨by decide, by decide, by decide, by decide, by decide⟩

/-- Claim C10: in emulator mode `sendBuffer` succeeds immediately with empty
response, does not touch the serial channel, and leaves the
`actualMarkerCount` out-parameter (and the recorded marker positions)
exactly as they were — the reset to 0 happens only on the non-emulator
path, so a stale marker count can accompany a successful result. -/
theorem C10_sendBuffer_emulator (country : Nat) (device : String) (lastSend : Nat)
    (buffer : String) (timeout expectedMarkerCount : Nat) (input : List Int)
    (actualMarkerCountIn : Nat) (markerPosIn : List Nat) :
    (⟨country, true, device, lastSend⟩ : Wisol).sendBuffer buffer timeout
        expectedMarkerCount input actualMarkerCountIn markerPosIn
      = { success := true, response := [], actualMarkerCount := actualMarkerCountIn,
          markerPos := markerPosIn, channelTouched := false } := rfl
